import Mathlib

/-!
Verification of the terminal menu engine and download orchestrator of
`src/main.py` (yt-dlp CLI). Each Python function the claims mention is
shallowly embedded as an executable Lean definition; effects (terminal
writes, the wall clock, the settings file) are made explicit as returned
event lists, timestamp parameters and injected save functions.
-/

/- ===== ANSI stripping and row measurement (`strip_ansi`,
   `MenuScreen._measure_display_lines`) ===== -/

/-- One character of the `[0-9;]*` body of an ANSI escape, per the regex
pattern in `strip_ansi`. -/
def isAnsiBodyChar (c : Char) : Bool :=
  c.isDigit || c = ';'

/-- The final `[A-Za-z]` character of an ANSI escape. -/
def isAnsiFinalChar (c : Char) : Bool :=
  (('A' ≤ c && c ≤ 'Z') || ('a' ≤ c && c ≤ 'z'))

/-- Consume `[0-9;]*[A-Za-z]` and return the remaining characters, or
`none` when the pattern does not match here. -/
def dropAnsiBody : List Char → Option (List Char)
  | [] => none
  | c :: rest =>
    if isAnsiBodyChar c then dropAnsiBody rest
    else if isAnsiFinalChar c then some rest
    else none

/-- After an ESC byte, match `\[[0-9;]*[A-Za-z]` (the rest of the pattern
`\x1b\[[0-9;]*[A-Za-z]` of `strip_ansi`). -/
def matchAnsiSeq : List Char → Option (List Char)
  | '[' :: rest => dropAnsiBody rest
  | _ => none

/-- Left-to-right scan deleting every match of `\x1b\[[0-9;]*[A-Za-z]`,
exactly as `re.sub` does (leftmost match, scanning resumes after a failed
start position). The fuel argument only bounds recursion; one character is
consumed per step, so `fuel = length` always suffices. -/
def stripAnsiFuel : Nat → List Char → List Char
  | 0, l => l
  | _ + 1, [] => []
  | fuel + 1, c :: rest =>
    if c = '\x1b' then
      match matchAnsiSeq rest with
      | some rest2 => stripAnsiFuel fuel rest2
      | none => c :: stripAnsiFuel fuel rest
    else c :: stripAnsiFuel fuel rest

/-- `strip_ansi(text)`: remove ANSI style-marker sequences. -/
def strip_ansi (l : List Char) : List Char :=
  stripAnsiFuel l.length l

/-- `MenuScreen._measure_display_lines`: total terminal rows the given
lines occupy at terminal width `width0`, one loop iteration per line,
`max(1, (len(plain)+width-1)//width)` for a nonempty stripped line and `1`
for an empty one. -/
def measure_display_lines (lines : List (List Char)) (width0 : Nat) : Nat :=
  let width := max 1 width0
  lines.foldl
    (fun total entry =>
      let plain := strip_ansi entry
      total + (if plain.isEmpty then 1 else max 1 ((plain.length + width - 1) / width)))
    0

theorem measure_display_lines_foldl (W : Nat) (hW : 1 ≤ W) :
    ∀ (lines : List (List Char)) (acc : Nat),
      List.foldl
        (fun total entry =>
          let plain := strip_ansi entry
          total + (if plain.isEmpty then 1 else max 1 ((plain.length + W - 1) / W)))
        acc lines
      = acc + (lines.map (fun e => max 1 ((strip_ansi e).length ⌈/⌉ W))).sum := by
  intro lines
  induction lines with
  | nil => intro acc; simp
  | cons e rest ih =>
    intro acc
    simp only [List.foldl_cons, List.map_cons, List.sum_cons, ih]
    have hline :
        (if (strip_ansi e).isEmpty then 1
         else max 1 (((strip_ansi e).length + W - 1) / W))
        = max 1 ((strip_ansi e).length ⌈/⌉ W) := by
      rw [Nat.ceilDiv_eq_add_pred_div]
      rcases h : (strip_ansi e).isEmpty with _ | _
      · simp
      · have hnil : strip_ansi e = [] := List.isEmpty_iff.mp h
        simp [hnil, Nat.div_eq_of_lt (show W - 1 < W by omega)]
    rw [hline]
    omega

/-- C8: for every frame and width `W ≥ 1`, the measured occupied-row count
is the sum over lines of `max 1 ⌈visibleLength / W⌉`, where the visible
length strips ANSI style markers; an empty line counts as exactly one
row. -/
theorem measure_display_lines_spec (lines : List (List Char)) (W : Nat) (hW : 1 ≤ W) :
    measure_display_lines lines W
      = (lines.map (fun e => max 1 ((strip_ansi e).length ⌈/⌉ W))).sum
    ∧ ∀ e, strip_ansi e = [] → max 1 ((strip_ansi e).length ⌈/⌉ W) = 1 := by
  constructor
  · have hmax : max 1 W = W := Nat.max_eq_right hW
    unfold measure_display_lines
    simp only [hmax]
    rw [measure_display_lines_foldl W hW lines 0, Nat.zero_add]
  · intro e he
    rw [he]
    simp [Nat.ceilDiv_eq_add_pred_div, Nat.div_eq_of_lt (show W - 1 < W by omega)]

/-- Witness for C8 at a concrete frame: a styled 3-char line, an 11-char
line and an empty line at width 10 occupy 1 + 2 + 1 = 4 rows. -/
theorem measure_display_lines_spec_witness :
    measure_display_lines
        [('\x1b' :: '[' :: '1' :: 'm' :: ['o', 'k', '!']),
         List.replicate 11 'a', []] 10
      = ([('\x1b' :: '[' :: '1' :: 'm' :: ['o', 'k', '!']),
          List.replicate 11 'a', []].map
          (fun e => max 1 ((strip_ansi e).length ⌈/⌉ 10))).sum := by
  exact (measure_display_lines_spec _ 10 (by decide)).1

/- ===== Screen renderer state machine (`MenuScreen.render`) ===== -/

/-- The mutable fields of a `MenuScreen` instance that `render` reads and
writes (`_display_lines`, `_initial`, `_supports_cursor`). -/
structure MenuScreenState where
  display_lines : Nat
  initial : Bool
  supports_cursor : Bool
deriving Repr, DecidableEq

/-- The erase action `render` performs before printing the new frame:
either a full-console clear, or `ESC[{rows}F ESC[J` (cursor up `rows`
rows, then clear to end of screen). -/
inductive EraseOp where
  | clearScreen : EraseOp
  | cursorUpAndClear : Nat → EraseOp
deriving Repr, DecidableEq

/-- `MenuScreen.render(lines)` at current terminal width `width`: measure
the new frame, pick the erase action, print, and record the new frame's
row count in `_display_lines`. -/
def MenuScreen.render (s : MenuScreenState) (lines : List (List Char)) (width : Nat) :
    EraseOp × MenuScreenState :=
  let shown := measure_display_lines lines width
  if s.initial then
    (EraseOp.clearScreen, ⟨shown, false, s.supports_cursor⟩)
  else if s.supports_cursor && s.display_lines != 0 then
    (EraseOp.cursorUpAndClear s.display_lines, ⟨shown, s.initial, s.supports_cursor⟩)
  else
    (EraseOp.clearScreen, ⟨shown, s.initial, s.supports_cursor⟩)

/-- `MenuScreen.reset()`. -/
def MenuScreen.reset (s : MenuScreenState) : MenuScreenState :=
  ⟨0, true, s.supports_cursor⟩

/-- C2 counterexample: a 10-character line rendered first at width 10
records one row; re-rendering at width 5 erases using the recorded count 1
even though remeasuring that previous frame at the now-current width 5
gives 2 rows — the erase count is reused, not recomputed. -/
theorem render_erase_count_counterexample :
    (MenuScreen.render
        ((MenuScreen.render ⟨0, true, true⟩ [List.replicate 10 'a'] 10).2)
        [List.replicate 10 'a'] 5).1
      = EraseOp.cursorUpAndClear 1
    ∧ measure_display_lines [List.replicate 10 'a'] 5 = 2 := by
  decide

/-- C2 amended: for every render after the first (cursor-capable, nonzero
recorded count), the erased row count is exactly the count recorded at the
prior render — the prior frame as measured at the prior render's width —
while the count recorded for the next cycle is the new frame measured
fresh at the current width. -/
theorem render_erase_uses_recorded_count (s : MenuScreenState)
    (lines : List (List Char)) (width : Nat)
    (h1 : s.initial = false) (h2 : s.supports_cursor = true)
    (h3 : s.display_lines ≠ 0) :
    (MenuScreen.render s lines width).1 = EraseOp.cursorUpAndClear s.display_lines
    ∧ (MenuScreen.render s lines width).2.display_lines
        = measure_display_lines lines width := by
  simp [MenuScreen.render, h1, h2, h3]

/-- Witness for C2's amended theorem at the concrete state produced by a
first render at width 10, re-rendered at width 5. -/
theorem render_erase_uses_recorded_count_witness :
    (MenuScreen.render ⟨1, false, true⟩ [List.replicate 10 'a'] 5).1
      = EraseOp.cursorUpAndClear 1
    ∧ (MenuScreen.render ⟨1, false, true⟩ [List.replicate 10 'a'] 5).2.display_lines
      = measure_display_lines [List.replicate 10 'a'] 5 :=
  render_erase_uses_recorded_count ⟨1, false, true⟩ [List.replicate 10 'a'] 5
    rfl rfl (by decide)

/- ===== Cursor-visibility reference counting (`push_hidden_cursor`,
   `pop_hidden_cursor`) ===== -/

/-- Control string written by `hide_cursor()`. -/
def hide_cursor_code : String := "\x1b[?25l"

/-- Control string written by `show_cursor()`. -/
def show_cursor_code : String := "\x1b[?25h"

/-- `push_hidden_cursor()`: acting on the global `_CURSOR_HIDE_DEPTH`,
emits the hide control only on the 0 → 1 transition. `ansi` is whether
`supports_ansi()` holds (gating the actual write). -/
def push_hidden_cursor (ansi : Bool) (depth : Nat) : Nat × List String :=
  if depth = 0 then (depth + 1, if ansi then [hide_cursor_code] else [])
  else (depth + 1, [])

/-- `pop_hidden_cursor(force)`: with `force` the depth is reset to 0 and
the show control is emitted unconditionally; otherwise a positive depth is
decremented and the show control is emitted only on reaching 0. -/
def pop_hidden_cursor (force : Bool) (ansi : Bool) (depth : Nat) : Nat × List String :=
  if force then (0, if ansi then [show_cursor_code] else [])
  else if depth > 0 then
    if depth - 1 = 0 then (depth - 1, if ansi then [show_cursor_code] else [])
    else (depth - 1, [])
  else (depth, [])

/-- C7 counterexample: after the main menu's hide scope opens (depth
0 → 1, scope still open), the forced pop that `handle_download` performs
emits the cursor-show control and zeroes the count — an operation inside
an enclosing hide scope makes the cursor visible again. -/
theorem cursor_force_pop_counterexample :
    (push_hidden_cursor true 0).1 ≠ 0
    ∧ pop_hidden_cursor true true (push_hidden_cursor true 0).1
      = (0, [show_cursor_code]) := by
  constructor
  · decide
  · rfl

/-- C7 amended: non-forced operations are reference counted — a nested
push emits nothing, a non-forced pop emits the show control only when the
outermost scope exits (depth 1 → 0) and never while an enclosing scope
remains open — but the forced pop used by `handle_download` and
`configure_settings` resets the count to 0 and emits the show control
regardless of open scopes. -/
theorem cursor_refcount_amended_spec (d : Nat) (hd : 1 ≤ d) :
    push_hidden_cursor true d = (d + 1, [])
    ∧ pop_hidden_cursor false true (d + 1) = (d, [])
    ∧ pop_hidden_cursor false true 1 = (0, [show_cursor_code])
    ∧ pop_hidden_cursor false true 0 = (0, [])
    ∧ push_hidden_cursor true 0 = (1, [hide_cursor_code])
    ∧ (∀ n, pop_hidden_cursor true true n = (0, [show_cursor_code])) := by
  refine ⟨?_, ?_, rfl, rfl, rfl, fun n => rfl⟩
  · have hne : d ≠ 0 := by omega
    simp [push_hidden_cursor, hne]
  · have hne : d + 1 - 1 ≠ 0 := by omega
    simp [pop_hidden_cursor, hne]
    omega

/-- Witness for C7's amended theorem at depth 1: a second, nested push
emits nothing and its matching pop emits nothing. -/
theorem cursor_refcount_amended_spec_witness :
    push_hidden_cursor true 1 = (2, [])
    ∧ pop_hidden_cursor false true 2 = (1, []) := by
  have h := cursor_refcount_amended_spec 1 (by decide)
  exact ⟨h.1, h.2.1⟩

/- ===== Raw keyboard input (`read_keypress`) ===== -/

/-- The Windows (`msvcrt`) branch of `read_keypress`. `key` is the byte
returned by the first `getch()` (after draining buffered keys); `next` is
the byte a second `getch()` would return, consumed only after an `0x00` or
`0xe0` extended-key prefix. -/
def read_keypress_windows (key next : Nat) : String :=
  if key = 0x00 ∨ key = 0xe0 then
    if next = 0x48 then "UP" else if next = 0x50 then "DOWN" else ""
  else if key = 0x0d then "ENTER"
  else if key = 0x20 then "SPACE"
  else if key = 0x1b then "ESC"
  else ""

/-- The POSIX (`termios`) branch of `read_keypress`. `ch` is the first
character read in raw mode; `escReady` is whether `select` reports a
continuation byte within the 50 ms look-ahead after an escape; `next` is
that continuation character and `arr` the arrow byte after a CSI `[`. -/
def read_keypress_posix (ch : Char) (escReady : Bool) (next arr : Char) : String :=
  if ch = '\x0d' ∨ ch = '\x0a' then "ENTER"
  else if ch = '\x1b' then
    if !escReady then "ESC"
    else if next = '[' then
      if arr = 'A' then "UP" else if arr = 'B' then "DOWN" else ""
    else String.mk [next]
  else if ch = ' ' then "SPACE"
  else ""

/-- C4 counterexample: on the Windows branch a line-feed byte (`0x0a`)
does not map to Confirm — it falls through every case to the no-event
value — and on the POSIX branch an escape followed by the unrecognized
continuation byte `O` returns the string `"O"`, not the no-event value. -/
theorem read_keypress_counterexample :
    read_keypress_windows 0x0a 0 = ""
    ∧ read_keypress_windows 0x0a 0 ≠ "ENTER"
    ∧ read_keypress_posix '\x1b' true 'O' 'A' = "O"
    ∧ read_keypress_posix '\x1b' true 'O' 'A' ≠ "" := by
  refine ⟨rfl, ?_, rfl, ?_⟩ <;> decide

/-- C4 amended: the POSIX branch maps both carriage return and line feed
to Confirm, while the Windows branch maps only carriage return (line feed
yields the no-event value). Unrecognized single bytes yield the no-event
value on both branches, as does an unrecognized arrow byte after ESC-`[`;
but on the POSIX branch an escape whose continuation byte is not `[`
returns that byte as a one-character string instead of the no-event
value. No caller-visible state exists to change. -/
theorem read_keypress_amended_spec :
    (∀ next, read_keypress_windows 0x0d next = "ENTER")
    ∧ (∀ escReady next arr,
        read_keypress_posix '\x0d' escReady next arr = "ENTER"
        ∧ read_keypress_posix '\x0a' escReady next arr = "ENTER")
    ∧ (∀ next, read_keypress_windows 0x0a next = "")
    ∧ (∀ key next, key ∉ ([0x00, 0xe0, 0x0d, 0x20, 0x1b] : List Nat) →
        read_keypress_windows key next = "")
    ∧ (∀ next, next ≠ 0x48 → next ≠ 0x50 →
        read_keypress_windows 0x00 next = "" ∧ read_keypress_windows 0xe0 next = "")
    ∧ (∀ ch escReady next arr,
        ch ∉ (['\x0d', '\x0a', '\x1b', ' '] : List Char) →
        read_keypress_posix ch escReady next arr = "")
    ∧ (∀ arr, arr ≠ 'A' → arr ≠ 'B' →
        read_keypress_posix '\x1b' true '[' arr = "")
    ∧ (∀ next arr, next ≠ '[' →
        read_keypress_posix '\x1b' true next arr = String.mk [next]) := by
  refine ⟨fun next => rfl, fun escReady next arr => ⟨rfl, rfl⟩, fun next => rfl,
    ?_, ?_, ?_, ?_, ?_⟩
  · intro key next hk
    simp only [List.mem_cons, List.not_mem_nil, or_false, not_or] at hk
    obtain ⟨h1, h2, h3, h4, h5⟩ := hk
    simp [read_keypress_windows, h1, h2, h3, h4, h5]
  · intro next h1 h2
    constructor <;> simp [read_keypress_windows, h1, h2]
  · intro ch escReady next arr hc
    simp only [List.mem_cons, List.not_mem_nil, or_false, not_or] at hc
    obtain ⟨h1, h2, h3, h4⟩ := hc
    simp [read_keypress_posix, h1, h2, h3, h4]
  · intro arr h1 h2
    simp [read_keypress_posix, h1, h2]
  · intro next arr h
    simp [read_keypress_posix, h]

/-- Witness for C4's amended theorem: carriage return confirms on both
branches, line feed confirms only on the POSIX branch, and the byte `q`
yields the no-event value on the Windows branch. -/
theorem read_keypress_amended_spec_witness :
    read_keypress_windows 0x0d 0 = "ENTER"
    ∧ read_keypress_posix '\x0a' false ' ' ' ' = "ENTER"
    ∧ read_keypress_windows 0x71 0 = "" := by
  have h := read_keypress_amended_spec
  exact ⟨h.1 0, (h.2.1 false ' ' ' ').2, h.2.2.2.1 0x71 0 (by decide)⟩

/- ===== Per-job retry loop (`download_job`) ===== -/

/-- One job's final result: the `(success, error)` pair `download_job`
returns, together with the number of loop iterations it performed. -/
structure JobOutcome where
  succeeded : Bool
  lastError : Option String
  attemptsUsed : Nat
deriving Repr, DecidableEq

/-- The `for attempt in range(1, tries+1)` loop of `download_job`.
`transfer k` is the outcome of the k-th yt-dlp transfer attempt (1-based);
`used` counts iterations already performed and `lastErr` is the value of
`last_exception`. -/
def download_job_loop (transfer : Nat → Except String Unit) :
    Nat → Nat → Option String → JobOutcome
  | used, 0, lastErr => ⟨false, lastErr, used⟩
  | used, remaining + 1, _lastErr =>
    match transfer (used + 1) with
    | Except.ok _ => ⟨true, none, used + 1⟩
    | Except.error e => download_job_loop transfer (used + 1) remaining (some e)

/-- `download_job(..., tries)`: run up to `tries` attempts, returning
`(True, None)` on the first success and `(False, str(last_exception))`
after exhausting the budget. -/
def download_job (transfer : Nat → Except String Unit) (tries : Nat) : JobOutcome :=
  download_job_loop transfer 0 tries none

theorem download_job_loop_all_fail (transfer : Nat → Except String Unit) :
    ∀ (remaining used : Nat) (lastErr : Option String), 1 ≤ remaining →
      (∀ k, used < k → k ≤ used + remaining → ∃ e, transfer k = Except.error e) →
      ∃ e, transfer (used + remaining) = Except.error e
        ∧ download_job_loop transfer used remaining lastErr
            = ⟨false, some e, used + remaining⟩ := by
  intro remaining
  induction remaining with
  | zero => intro used _lastErr h; omega
  | succ r ih =>
    intro used lastErr _ hfail
    obtain ⟨e1, he1⟩ := hfail (used + 1) (by omega) (by omega)
    rcases Nat.eq_zero_or_pos r with hr | hr
    · subst hr
      exact ⟨e1, he1, by simp [download_job_loop, he1]⟩
    · obtain ⟨e, he, hloop⟩ := ih (used + 1) (some e1) hr
        (fun k hk1 hk2 => hfail k (by omega) (by omega))
      refine ⟨e, by rw [show used + (r + 1) = used + 1 + r by omega]; exact he, ?_⟩
      simp only [download_job_loop, he1]
      rw [hloop]
      congr 1
      omega

theorem download_job_loop_succeeds (transfer : Nat → Except String Unit) :
    ∀ (remaining used k : Nat) (lastErr : Option String),
      used < k → k ≤ used + remaining →
      transfer k = Except.ok () →
      (∀ j, used < j → j < k → ∃ e, transfer j = Except.error e) →
      download_job_loop transfer used remaining lastErr = ⟨true, none, k⟩ := by
  intro remaining
  induction remaining with
  | zero => intro used k lastErr h1 h2; omega
  | succ r ih =>
    intro used k lastErr h1 h2 hok hfail
    rcases Nat.lt_or_ge (used + 1) k with hlt | hge
    · obtain ⟨e1, he1⟩ := hfail (used + 1) (by omega) hlt
      simp only [download_job_loop, he1]
      exact ih (used + 1) k (some e1) hlt (by omega) hok
        (fun j hj1 hj2 => hfail j (by omega) hj2)
    · have hk : k = used + 1 := by omega
      subst hk
      simp [download_job_loop, hok]

theorem download_job_loop_bounds (transfer : Nat → Except String Unit) :
    ∀ (remaining used : Nat) (lastErr : Option String),
      used ≤ (download_job_loop transfer used remaining lastErr).attemptsUsed
      ∧ (download_job_loop transfer used remaining lastErr).attemptsUsed
          ≤ used + remaining
      ∧ (1 ≤ remaining →
          used + 1 ≤ (download_job_loop transfer used remaining lastErr).attemptsUsed) := by
  intro remaining
  induction remaining with
  | zero => intro used lastErr; simp [download_job_loop]
  | succ r ih =>
    intro used lastErr
    rcases htr : transfer (used + 1) with e | u
    · have hunfold : download_job_loop transfer used (r + 1) lastErr
          = download_job_loop transfer (used + 1) r (some e) := by
        simp [download_job_loop, htr]
      rw [hunfold]
      obtain ⟨ha, hb, _⟩ := ih (used + 1) (some e)
      exact ⟨by omega, by omega, fun _ => by omega⟩
    · have hunfold : download_job_loop transfer used (r + 1) lastErr
          = ⟨true, none, used + 1⟩ := by
        simp [download_job_loop, htr]
      rw [hunfold]
      exact ⟨show used ≤ used + 1 by omega, show used + 1 ≤ used + (r + 1) by omega,
        fun _ => show used + 1 ≤ used + 1 by omega⟩

/-- C1: with an attempt budget `tries ≥ 1`, a job whose every attempt
fails performs exactly `tries` attempts and returns a failed outcome
carrying the last attempt's error text; a job whose transfer first
succeeds on attempt `k ≤ tries` performs exactly `k` attempts and returns
a succeeded outcome; and in every case `1 ≤ attemptsUsed ≤ tries`. -/
theorem download_job_retry_spec (transfer : Nat → Except String Unit)
    (tries : Nat) (htries : 1 ≤ tries) :
    ((∀ k, 1 ≤ k → k ≤ tries → ∃ e, transfer k = Except.error e) →
      ∃ e, transfer tries = Except.error e
        ∧ download_job transfer tries = ⟨false, some e, tries⟩)
    ∧ (∀ k, 1 ≤ k → k ≤ tries → transfer k = Except.ok () →
        (∀ j, 1 ≤ j → j < k → ∃ e, transfer j = Except.error e) →
        download_job transfer tries = ⟨true, none, k⟩)
    ∧ 1 ≤ (download_job transfer tries).attemptsUsed
    ∧ (download_job transfer tries).attemptsUsed ≤ tries := by
  refine ⟨?_, ?_, ?_, ?_⟩
  · intro hfail
    obtain ⟨e, he, hloop⟩ := download_job_loop_all_fail transfer tries 0 none htries
      (fun k hk1 hk2 => hfail k (by omega) (by omega))
    exact ⟨e, by rwa [Nat.zero_add] at he, by rwa [Nat.zero_add] at hloop⟩
  · intro k hk1 hk2 hok hfail
    exact download_job_loop_succeeds transfer tries 0 k none (by omega) (by omega)
      hok (fun j hj1 hj2 => hfail j (by omega) hj2)
  · exact (download_job_loop_bounds transfer tries 0 none).2.2 htries
  · have h := (download_job_loop_bounds transfer tries 0 none).2.1
    simpa [download_job] using h

/-- Witness for C1 at a concrete job: attempt 1 fails, attempt 2 succeeds
within a budget of 3, so the job succeeds with exactly 2 attempts. -/
theorem download_job_retry_spec_witness :
    download_job (fun k => if k = 2 then Except.ok () else Except.error "boom") 3
      = ⟨true, none, 2⟩ := by
  have h := download_job_retry_spec
    (fun k => if k = 2 then Except.ok () else Except.error "boom") 3 (by decide)
  refine h.2.1 2 (by decide) (by decide) rfl ?_
  intro j hj1 hj2
  have hj : j = 1 := by omega
  subst hj
  exact ⟨"boom", rfl⟩

/- ===== Progress aggregation (`ProgressDisplay`) ===== -/

/-- The mutable fields of a `ProgressDisplay` instance (`_current_file`,
`_last_update`); the lock only serializes writes and carries no state.
Timestamps are `time.time()` values in seconds. -/
structure ProgressDisplayState where
  current_file : String
  last_update : ℚ
deriving DecidableEq

/-- One write `ProgressDisplay` performs on the terminal: a newline-headed
source-name header, an in-place (`\r`, no newline) progress overwrite, or
the newline-terminated completion line. -/
inductive TermWrite where
  | headerLine : String → TermWrite
  | progressOverwrite : String → String → TermWrite
  | completeLine : String → Bool → TermWrite
deriving DecidableEq

/-- `ProgressDisplay.update(filename, percent, speed)` at wall-clock time
`now`: returns whether the call was accepted, the terminal writes it
performed, and the successor state. Rejected calls return before touching
any field. -/
def ProgressDisplay.update (s : ProgressDisplayState)
    (filename percent speed : String) (now : ℚ) :
    Bool × List TermWrite × ProgressDisplayState :=
  if now - s.last_update < 1/2 then (false, [], s)
  else
    let writes :=
      if filename ≠ s.current_file
      then [TermWrite.headerLine filename, TermWrite.progressOverwrite percent speed]
      else [TermWrite.progressOverwrite percent speed]
    (true, writes, ⟨filename, now⟩)

/-- `ProgressDisplay.complete(filename, success)`: always prints exactly
one line and leaves the state unchanged. -/
def ProgressDisplay.complete (s : ProgressDisplayState)
    (filename : String) (success : Bool) :
    List TermWrite × ProgressDisplayState :=
  ([TermWrite.completeLine filename success], s)

/-- One `update` call's arguments, with the wall-clock instant at which
the call runs. -/
structure UpdateCall where
  filename : String
  percent : String
  speed : String
  time : ℚ

/-- Run a sequence of `update` calls against one aggregator instance,
counting the accepted calls. -/
def run_updates (s : ProgressDisplayState) : List UpdateCall → Nat × ProgressDisplayState
  | [] => (0, s)
  | c :: rest =>
    let r := ProgressDisplay.update s c.filename c.percent c.speed c.time
    let tail := run_updates r.2.2 rest
    ((if r.1 then 1 else 0) + tail.1, tail.2)

theorem run_updates_all_rejected (lo hi : ℚ) (hw : hi - lo < 1/2) :
    ∀ (calls : List UpdateCall) (s : ProgressDisplayState),
      (∀ c ∈ calls, c.time ≤ hi) → lo ≤ s.last_update →
      run_updates s calls = (0, s) := by
  intro calls
  induction calls with
  | nil => intro s _ _; rfl
  | cons c rest ih =>
    intro s hcalls hs
    have hrej : c.time - s.last_update < 1/2 := by
      have h1 : c.time ≤ hi := hcalls c (List.mem_cons_self c rest)
      linarith
    simp only [run_updates, ProgressDisplay.update, if_pos hrej]
    rw [ih s (fun d hd => hcalls d (List.mem_cons_of_mem c hd)) hs]
    simp

theorem run_updates_window_le_one (lo hi : ℚ) (hw : hi - lo < 1/2) :
    ∀ (calls : List UpdateCall) (s : ProgressDisplayState),
      (∀ c ∈ calls, lo ≤ c.time ∧ c.time ≤ hi) →
      (run_updates s calls).1 ≤ 1 := by
  intro calls
  induction calls with
  | nil => intro s _; simp [run_updates]
  | cons c rest ih =>
    intro s hcalls
    by_cases hacc : c.time - s.last_update < 1/2
    · simp only [run_updates, ProgressDisplay.update, if_pos hacc]
      simpa using ih s (fun d hd => hcalls d (List.mem_cons_of_mem c hd))
    · simp only [run_updates, ProgressDisplay.update, if_neg hacc]
      have htail :
          run_updates ⟨c.filename, c.time⟩ rest = (0, ⟨c.filename, c.time⟩) :=
        run_updates_all_rejected lo hi hw rest ⟨c.filename, c.time⟩
          (fun d hd => (hcalls d (List.mem_cons_of_mem c hd)).2)
          (hcalls c (List.mem_cons_self c rest)).1
      simp [htail]

theorem ProgressDisplay.update_accepted (s : ProgressDisplayState)
    (f p sp : String) (now : ℚ) (h : ¬ now - s.last_update < 1/2) :
    (ProgressDisplay.update s f p sp now).1 = true
    ∧ (ProgressDisplay.update s f p sp now).2.2 = ⟨f, now⟩ := by
  simp only [ProgressDisplay.update]
  rw [if_neg h]
  exact ⟨rfl, rfl⟩

/-- C3: an `update` call is a complete no-op (no write, no state change)
unless at least 500 ms has passed since the last accepted update; the rate
limit is global to the aggregator instance, so any batch of update calls
whose timestamps span less than 500 ms (e.g. 100 calls within 10 ms, any
mix of sources) is accepted at most once, while two calls 600 ms apart are
both accepted; and every `complete` call writes exactly one terminal
line. -/
theorem progress_display_spec (s : ProgressDisplayState) :
    (∀ f p sp now, now - s.last_update < 1/2 →
        ProgressDisplay.update s f p sp now = (false, [], s))
    ∧ (∀ lo hi calls, hi - lo < 1/2 →
        (∀ c ∈ calls, lo ≤ c.time ∧ c.time ≤ hi) →
        (run_updates s calls).1 ≤ 1)
    ∧ (∀ c1 c2 : UpdateCall, 1/2 ≤ c1.time - s.last_update →
        1/2 ≤ c2.time - c1.time →
        (run_updates s [c1, c2]).1 = 2)
    ∧ (∀ f b, (ProgressDisplay.complete s f b).1 = [TermWrite.completeLine f b]) := by
  refine ⟨?_, ?_, ?_, fun f b => rfl⟩
  · intro f p sp now hnow
    simp only [ProgressDisplay.update]
    rw [if_pos hnow]
  · intro lo hi calls hw hcalls
    exact run_updates_window_le_one lo hi hw calls s hcalls
  · intro c1 c2 h1 h2
    have hn1 : ¬ c1.time - s.last_update < 1/2 := not_lt.mpr h1
    have hr1 := ProgressDisplay.update_accepted s c1.filename c1.percent c1.speed
      c1.time hn1
    have hn2 : ¬ c2.time
        - (ProgressDisplayState.mk c1.filename c1.time).last_update < 1/2 :=
      not_lt.mpr h2
    have hr2 := ProgressDisplay.update_accepted ⟨c1.filename, c1.time⟩
      c2.filename c2.percent c2.speed c2.time hn2
    simp only [run_updates]
    rw [hr1.2, hr1.1, hr2.1]
    norm_num

/-- Witness for C3 at a concrete aggregator: a too-early call is a no-op,
three calls within 10 ms are accepted at most once, two calls 600 ms apart
are both accepted, and a `complete` call emits one line. -/
theorem progress_display_spec_witness :
    ProgressDisplay.update ⟨"", 0⟩ "f" "1%" "2MiB/s" (1/4) = (false, [], ⟨"", 0⟩)
    ∧ (run_updates ⟨"", 0⟩
        [⟨"a", "1%", "s", 1⟩, ⟨"b", "2%", "s", 1 + 1/200⟩,
         ⟨"a", "3%", "s", 1 + 1/100⟩]).1 ≤ 1
    ∧ (run_updates ⟨"", 0⟩ [⟨"a", "1%", "s", 1⟩, ⟨"a", "2%", "s", 1 + 3/5⟩]).1 = 2
    ∧ (ProgressDisplay.complete ⟨"", 0⟩ "a" true).1 = [TermWrite.completeLine "a" true] := by
  have h := progress_display_spec ⟨"", 0⟩
  refine ⟨h.1 "f" "1%" "2MiB/s" (1/4) (by norm_num), ?_, ?_, h.2.2.2 "a" true⟩
  · refine h.2.1 1 (1 + 1/100) _ (by norm_num) ?_
    intro c hc
    simp only [List.mem_cons, List.not_mem_nil, or_false] at hc
    rcases hc with h1 | h1 | h1 <;> subst h1 <;> constructor <;> norm_num
  · exact h.2.2.1 ⟨"a", "1%", "s", 1⟩ ⟨"a", "2%", "s", 1 + 3/5⟩ (by norm_num) (by norm_num)

/- ===== Menu selection arithmetic (`select_format`, `main`,
   `configure_settings`) ===== -/

/-- One keypress handled by the `select_format` loop over `n` formats:
`UP` and `DOWN` move the selection with Python's nonnegative `%`, every
other key leaves it unchanged (`ENTER` and `ESC` exit the loop with the
selection as is). -/
def select_format_step (n : Nat) (selection : Int) (k : String) : Int :=
  if k = "UP" then (selection - 1) % (n : Int)
  else if k = "DOWN" then (selection + 1) % (n : Int)
  else selection

/-- Fold `select_format_step` over a key sequence. -/
def run_select_format (n : Nat) (selection : Int) : List String → Int
  | [] => selection
  | k :: rest => run_select_format n (select_format_step n selection k) rest

/-- Net displacement of a key sequence: number of `DOWN`s minus number of
`UP`s. -/
def net_displacement : List String → Int
  | [] => 0
  | k :: rest =>
    (if k = "DOWN" then 1 else if k = "UP" then -1 else 0) + net_displacement rest

theorem select_format_step_up (n : Nat) (sel : Int) :
    select_format_step n sel "UP" = (sel - 1) % (n : Int) := by
  unfold select_format_step
  rw [if_pos rfl]

theorem select_format_step_down (n : Nat) (sel : Int) :
    select_format_step n sel "DOWN" = (sel + 1) % (n : Int) := by
  unfold select_format_step
  rw [if_neg (by decide : ¬ (("DOWN" : String) = "UP")), if_pos rfl]

theorem run_select_format_emod (n : Nat) :
    ∀ (events : List String) (sel : Int),
      (∀ e ∈ events, e = "UP" ∨ e = "DOWN") →
      run_select_format n (sel % (n : Int)) events
        = (sel + net_displacement events) % (n : Int) := by
  intro events
  induction events with
  | nil => intro sel _; simp [run_select_format, net_displacement]
  | cons e rest ih =>
    intro sel hev
    rcases hev e (List.mem_cons_self e rest) with he | he
    · subst he
      have hstep : select_format_step n (sel % (n : Int)) "UP"
          = ((sel - 1) % (n : Int)) := by
        rw [select_format_step_up, Int.sub_emod,
          Int.emod_emod_of_dvd sel dvd_rfl, ← Int.sub_emod]
      rw [run_select_format, hstep,
        ih (sel - 1) (fun x hx => hev x (List.mem_cons_of_mem _ hx))]
      have hnet : net_displacement ("UP" :: rest) = -1 + net_displacement rest := by
        simp [net_displacement]
      rw [hnet]
      congr 1
      ring
    · subst he
      have hstep : select_format_step n (sel % (n : Int)) "DOWN"
          = ((sel + 1) % (n : Int)) := by
        rw [select_format_step_down, Int.add_emod,
          Int.emod_emod_of_dvd sel dvd_rfl, ← Int.add_emod]
      rw [run_select_format, hstep,
        ih (sel + 1) (fun x hx => hev x (List.mem_cons_of_mem _ hx))]
      have hnet : net_displacement ("DOWN" :: rest) = 1 + net_displacement rest := by
        simp [net_displacement]
      rw [hnet]
      congr 1
      ring

/-- C6: in the format-selection loop over `n ≥ 1` options, starting from
selection 0, any Up/Down sequence ends at the net displacement (downs
minus ups) modulo `n`; Up at 0 wraps to `n - 1`, Down at `n - 1` wraps to
0, and any key other than Up/Down (including the loop-terminating Confirm
and Cancel) leaves the selection unchanged. -/
theorem select_format_net_displacement (n : Nat) (hn : 1 ≤ n) :
    (∀ events : List String, (∀ e ∈ events, e = "UP" ∨ e = "DOWN") →
        run_select_format n 0 events = net_displacement events % (n : Int))
    ∧ select_format_step n 0 "UP" = (n : Int) - 1
    ∧ select_format_step n ((n : Int) - 1) "DOWN" = 0
    ∧ (∀ sel k, k ≠ "UP" → k ≠ "DOWN" → select_format_step n sel k = sel) := by
  have hn0 : (0 : Int) < (n : Int) := by exact_mod_cast hn
  refine ⟨?_, ?_, ?_, ?_⟩
  · intro events hev
    have h := run_select_format_emod n events 0 hev
    rw [Int.zero_emod] at h
    rw [h, Int.zero_add]
  · rw [select_format_step_up]
    have hrw : (0 - 1 : Int) = ((n : Int) - 1) + (-1) * (n : Int) := by ring
    rw [hrw, Int.add_mul_emod_self]
    exact Int.emod_eq_of_lt (by omega) (by omega)
  · rw [select_format_step_down]
    have hrw : ((n : Int) - 1 + 1) = (n : Int) := by ring
    rw [hrw, Int.emod_self]
  · intro sel k h1 h2
    unfold select_format_step
    rw [if_neg h1, if_neg h2]

/-- Witness for C6: with 3 options, Up, Up, Down from selection 0 lands on
selection (-1) mod 3 = 2, and wraparound holds concretely. -/
theorem select_format_net_displacement_witness :
    run_select_format 3 0 ["UP", "UP", "DOWN"]
      = net_displacement ["UP", "UP", "DOWN"] % (3 : Int)
    ∧ select_format_step 3 0 "UP" = 2
    ∧ select_format_step 3 2 "DOWN" = 0
    ∧ select_format_step 3 1 "SPACE" = 1 := by
  have h := select_format_net_displacement 3 (by decide)
  refine ⟨h.1 ["UP", "UP", "DOWN"] ?_, ?_, ?_, h.2.2.2 1 "SPACE"
    (by decide) (by decide)⟩
  · intro e he
    simp only [List.mem_cons, List.not_mem_nil, or_false] at he
    rcases he with h1 | h1 | h1 <;> subst h1 <;> simp
  · have h2 := h.2.1
    norm_num at h2
    exact h2
  · have h3 := h.2.2.1
    norm_num at h3
    exact h3

/- ===== Menu-loop selection bounds (`main`, `configure_settings`) ===== -/

/-- The clamp `selection = min(selection, len(opts)-1)` both menu loops
apply right after rebuilding the option list and before rendering or
handling any event. -/
def menu_cycle_clamp (n : Nat) (selection : Int) : Int :=
  min selection ((n : Int) - 1)

/-- One full cycle of a menu loop with `n` freshly built options: clamp
the carried-over selection, then handle one keypress. -/
def menu_cycle (n : Nat) (selection : Int) (k : String) : Int :=
  let clamped := menu_cycle_clamp n selection
  if k = "UP" then (clamped - 1) % (n : Int)
  else if k = "DOWN" then (clamped + 1) % (n : Int)
  else clamped

/-- Iterate menu cycles; each cycle carries its own freshly built option
count (the option set may change size between renders). -/
def run_menu_cycles (selection : Int) : List (Nat × String) → Int
  | [] => selection
  | c :: rest => run_menu_cycles (menu_cycle c.1 selection c.2) rest

theorem menu_cycle_clamp_bounds (n : Nat) (hn : 1 ≤ n) (sel : Int) (hsel : 0 ≤ sel) :
    0 ≤ menu_cycle_clamp n sel ∧ menu_cycle_clamp n sel < (n : Int) := by
  unfold menu_cycle_clamp
  have hn0 : (1 : Int) ≤ (n : Int) := by exact_mod_cast hn
  constructor
  · exact le_min hsel (by omega)
  · exact lt_of_le_of_lt (min_le_right _ _) (by omega)

theorem menu_cycle_bounds (n : Nat) (hn : 1 ≤ n) (sel : Int) (hsel : 0 ≤ sel)
    (k : String) : 0 ≤ menu_cycle n sel k ∧ menu_cycle n sel k < (n : Int) := by
  have hnz : (n : Int) ≠ 0 := by
    have : (1 : Int) ≤ (n : Int) := by exact_mod_cast hn
    omega
  have hpos : (0 : Int) < (n : Int) := by
    have : (1 : Int) ≤ (n : Int) := by exact_mod_cast hn
    omega
  have hclamp := menu_cycle_clamp_bounds n hn sel hsel
  unfold menu_cycle
  by_cases hup : k = "UP"
  · rw [if_pos hup]
    exact ⟨Int.emod_nonneg _ hnz, Int.emod_lt_of_pos _ hpos⟩
  · rw [if_neg hup]
    by_cases hdown : k = "DOWN"
    · rw [if_pos hdown]
      exact ⟨Int.emod_nonneg _ hnz, Int.emod_lt_of_pos _ hpos⟩
    · rw [if_neg hdown]
      exact hclamp

theorem run_menu_cycles_nonneg :
    ∀ (cycles : List (Nat × String)) (sel : Int), 0 ≤ sel →
      (∀ c ∈ cycles, 1 ≤ c.1) → 0 ≤ run_menu_cycles sel cycles := by
  intro cycles
  induction cycles with
  | nil => intro sel hsel _; exact hsel
  | cons c rest ih =>
    intro sel hsel hc
    exact ih (menu_cycle c.1 sel c.2)
      (menu_cycle_bounds c.1 (hc c (List.mem_cons_self c rest)) sel hsel c.2).1
      (fun d hd => hc d (List.mem_cons_of_mem c hd))

/-- C9: starting from selection 0, after any history of menu cycles whose
freshly rebuilt option lists are nonempty, the carried selection is
nonnegative, and in the next cycle with `n ≥ 1` options — even if `n`
differs from every earlier cycle's count — the clamped selection the loop
indexes with satisfies `0 ≤ clamped < n`, and the selection after handling
any keypress again satisfies `0 ≤ sel < n`; so `opts[selection]` is always
in range and Confirm always picks an existing option. -/
theorem menu_selection_in_range (cycles : List (Nat × String))
    (hcycles : ∀ c ∈ cycles, 1 ≤ c.1) (n : Nat) (hn : 1 ≤ n) :
    0 ≤ run_menu_cycles 0 cycles
    ∧ 0 ≤ menu_cycle_clamp n (run_menu_cycles 0 cycles)
    ∧ menu_cycle_clamp n (run_menu_cycles 0 cycles) < (n : Int)
    ∧ ∀ k, 0 ≤ menu_cycle n (run_menu_cycles 0 cycles) k
        ∧ menu_cycle n (run_menu_cycles 0 cycles) k < (n : Int) := by
  have h0 : (0 : Int) ≤ run_menu_cycles 0 cycles :=
    run_menu_cycles_nonneg cycles 0 le_rfl hcycles
  have hclamp := menu_cycle_clamp_bounds n hn _ h0
  exact ⟨h0, hclamp.1, hclamp.2,
    fun k => menu_cycle_bounds n hn _ h0 k⟩

/-- Witness for C9: after a history in the 3-option main menu ending with
Up at selection 0 (selection 2), entering the 7-option settings menu and
pressing Down keeps the index in `[0, 7)`. -/
theorem menu_selection_in_range_witness :
    0 ≤ run_menu_cycles 0 [(3, "UP"), (3, "ENTER")]
    ∧ 0 ≤ menu_cycle_clamp 7 (run_menu_cycles 0 [(3, "UP"), (3, "ENTER")])
    ∧ menu_cycle_clamp 7 (run_menu_cycles 0 [(3, "UP"), (3, "ENTER")]) < (7 : Int)
    ∧ 0 ≤ menu_cycle 7 (run_menu_cycles 0 [(3, "UP"), (3, "ENTER")]) "DOWN"
    ∧ menu_cycle 7 (run_menu_cycles 0 [(3, "UP"), (3, "ENTER")]) "DOWN" < (7 : Int) := by
  have h := menu_selection_in_range [(3, "UP"), (3, "ENTER")]
    (by intro c hc
        simp only [List.mem_cons, List.not_mem_nil, or_false] at hc
        rcases hc with h1 | h1 <;> subst h1 <;> decide)
    7 (by decide)
  exact ⟨h.1, h.2.1, h.2.2.1, (h.2.2.2 "DOWN").1, (h.2.2.2 "DOWN").2⟩

/- ===== Settings edits (`configure_settings`, `RuntimeSettings.save`,
   `download_job` budget) ===== -/

/-- The flat fields of `RuntimeSettings` that the settings menu edits
(`OutputFolder` kept as plain text). -/
structure RuntimeSettings where
  OutputFolder : String
  OverwriteExisting : Bool
  ParallelDownloads : Nat
  RetryAttempts : Nat
  ChunkSizeKiB : Nat
  ShowStatusPanel : Bool
deriving Repr, DecidableEq

/-- Python's `str.isdigit()` on the stripped input: nonempty and all
digits. -/
def str_isdigit (v : String) : Bool :=
  !v.data.isEmpty && v.data.all Char.isDigit

/-- `int(v)` for a digit string. -/
def str_to_nat (v : String) : Nat :=
  v.data.foldl (fun acc c => acc * 10 + (c.toNat - 48)) 0

/-- The assignment `settings.ParallelDownloads = n` (all other fields
kept). -/
def set_parallel (s : RuntimeSettings) (n : Nat) : RuntimeSettings :=
  ⟨s.OutputFolder, s.OverwriteExisting, n, s.RetryAttempts, s.ChunkSizeKiB,
    s.ShowStatusPanel⟩

/-- The assignment `settings.RetryAttempts = n`. -/
def set_retries (s : RuntimeSettings) (n : Nat) : RuntimeSettings :=
  ⟨s.OutputFolder, s.OverwriteExisting, s.ParallelDownloads, n, s.ChunkSizeKiB,
    s.ShowStatusPanel⟩

/-- The assignment `settings.ChunkSizeKiB = n`. -/
def set_chunk (s : RuntimeSettings) (n : Nat) : RuntimeSettings :=
  ⟨s.OutputFolder, s.OverwriteExisting, s.ParallelDownloads, s.RetryAttempts, n,
    s.ShowStatusPanel⟩

/-- How one numeric-edit handler of `configure_settings` ends: the save
succeeded and a success line was printed; the input was rejected as
non-numeric; or `settings.save()` raised and the exception propagated out
of `configure_settings` (there is no try/except around it). -/
inductive EditResult where
  | saved : EditResult
  | invalid : EditResult
  | raised : String → EditResult
deriving Repr, DecidableEq

/-- The `"parallel"` action: on digit input, clamp into `[1, 16]`, assign,
then `settings.save()`. The injected `save` models the filesystem. -/
def edit_parallel (s : RuntimeSettings) (v : String)
    (save : RuntimeSettings → Except String Unit) : RuntimeSettings × EditResult :=
  if str_isdigit v then
    match save (set_parallel s (max 1 (min 16 (str_to_nat v)))) with
    | Except.ok _ => (set_parallel s (max 1 (min 16 (str_to_nat v))), EditResult.saved)
    | Except.error e =>
        (set_parallel s (max 1 (min 16 (str_to_nat v))), EditResult.raised e)
  else (s, EditResult.invalid)

/-- The `"retries"` action: on digit input, clamp into `[0, 10]`, assign,
then `settings.save()`. -/
def edit_retries (s : RuntimeSettings) (v : String)
    (save : RuntimeSettings → Except String Unit) : RuntimeSettings × EditResult :=
  if str_isdigit v then
    match save (set_retries s (max 0 (min 10 (str_to_nat v)))) with
    | Except.ok _ => (set_retries s (max 0 (min 10 (str_to_nat v))), EditResult.saved)
    | Except.error e =>
        (set_retries s (max 0 (min 10 (str_to_nat v))), EditResult.raised e)
  else (s, EditResult.invalid)

/-- The `"chunk"` action: on digit input, clamp into `[64, 4096]`, assign,
then `settings.save()`. -/
def edit_chunk (s : RuntimeSettings) (v : String)
    (save : RuntimeSettings → Except String Unit) : RuntimeSettings × EditResult :=
  if str_isdigit v then
    match save (set_chunk s (max 64 (min 4096 (str_to_nat v)))) with
    | Except.ok _ => (set_chunk s (max 64 (min 4096 (str_to_nat v))), EditResult.saved)
    | Except.error e =>
        (set_chunk s (max 64 (min 4096 (str_to_nat v))), EditResult.raised e)
  else (s, EditResult.invalid)

/-- `handle_download` submits the job with `settings.RetryAttempts` as the
whole attempt budget (`tries`). -/
def handle_download_job (s : RuntimeSettings)
    (transfer : Nat → Except String Unit) : JobOutcome :=
  download_job transfer s.RetryAttempts

/-- A default `RuntimeSettings()` instance. -/
def default_settings : RuntimeSettings :=
  ⟨"downloads", false, 4, 2, 512, true⟩

/-- C5 counterexample: with the digit input `"5"` and a save that fails
with an I/O error, the retries edit ends with the exception propagating
uncaught out of `configure_settings` (there is no handler), not with the
failure being reported and the flow continuing; the in-memory value has
already been set to 5. -/
theorem settings_save_failure_counterexample :
    edit_retries default_settings "5" (fun _ => Except.error "disk full")
      = (⟨"downloads", false, 4, 5, 512, true⟩, EditResult.raised "disk full")
    ∧ EditResult.raised "disk full" ≠ EditResult.saved
    ∧ EditResult.raised "disk full" ≠ EditResult.invalid := by
  refine ⟨rfl, ?_, ?_⟩ <;> intro h <;> cases h

/-- C5 amended: when persisting the settings record fails after a numeric
settings edit, the exception escapes `configure_settings` uncaught
(aborting the settings flow rather than reporting and continuing), and the
in-memory change already applied is not rolled back: the settings object
holds exactly the value a successful save would have left. -/
theorem settings_save_failure_semantics (s : RuntimeSettings) (v e : String)
    (hv : str_isdigit v = true) :
    (edit_retries s v (fun _ => Except.error e)).2 = EditResult.raised e
    ∧ (edit_retries s v (fun _ => Except.error e)).1.RetryAttempts
        = max 0 (min 10 (str_to_nat v))
    ∧ (edit_retries s v (fun _ => Except.error e)).1
        = (edit_retries s v (fun _ => Except.ok ())).1 := by
  unfold edit_retries
  rw [if_pos hv, if_pos hv]
  exact ⟨rfl, rfl, rfl⟩

/-- Witness for C5's amended theorem at the concrete input `"5"`. -/
theorem settings_save_failure_semantics_witness :
    (edit_retries default_settings "5" (fun _ => Except.error "disk full")).2
      = EditResult.raised "disk full"
    ∧ (edit_retries default_settings "5" (fun _ => Except.error "disk full")).1.RetryAttempts
      = max 0 (min 10 (str_to_nat "5"))
    ∧ (edit_retries default_settings "5" (fun _ => Except.error "disk full")).1
      = (edit_retries default_settings "5" (fun _ => Except.ok ())).1 :=
  settings_save_failure_semantics default_settings "5" "disk full" (by decide)

/-- C10: every accepted numeric settings edit clamps the stored value into
its fixed range (`ParallelDownloads` into `[1, 16]`, `RetryAttempts` into
`[0, 10]`, `ChunkSizeKiB` into `[64, 4096]`), non-digit input leaves the
settings unchanged, the input `"0"` is accepted for retries and stores 0,
and that value reaches `download_job` as the whole attempt budget, under
which the job performs no transfer attempt and returns a failed
outcome. -/
theorem settings_clamp_spec (s : RuntimeSettings) (v : String)
    (save : RuntimeSettings → Except String Unit) (hv : str_isdigit v = true) :
    ((edit_parallel s v save).1.ParallelDownloads = max 1 (min 16 (str_to_nat v))
      ∧ 1 ≤ (edit_parallel s v save).1.ParallelDownloads
      ∧ (edit_parallel s v save).1.ParallelDownloads ≤ 16)
    ∧ ((edit_retries s v save).1.RetryAttempts = max 0 (min 10 (str_to_nat v))
      ∧ (edit_retries s v save).1.RetryAttempts ≤ 10)
    ∧ ((edit_chunk s v save).1.ChunkSizeKiB = max 64 (min 4096 (str_to_nat v))
      ∧ 64 ≤ (edit_chunk s v save).1.ChunkSizeKiB
      ∧ (edit_chunk s v save).1.ChunkSizeKiB ≤ 4096)
    ∧ (∀ w, str_isdigit w = false →
        edit_parallel s w save = (s, EditResult.invalid)
        ∧ edit_retries s w save = (s, EditResult.invalid)
        ∧ edit_chunk s w save = (s, EditResult.invalid))
    ∧ (edit_retries s "0" save).1.RetryAttempts = 0
    ∧ (∀ transfer,
        handle_download_job (edit_retries s "0" save).1 transfer
          = ⟨false, none, 0⟩) := by
  have hpar : (edit_parallel s v save).1
      = set_parallel s (max 1 (min 16 (str_to_nat v))) := by
    unfold edit_parallel
    rw [if_pos hv]
    rcases save (set_parallel s (max 1 (min 16 (str_to_nat v)))) with e | u <;> rfl
  have hret : ∀ w, str_isdigit w = true →
      (edit_retries s w save).1 = set_retries s (max 0 (min 10 (str_to_nat w))) := by
    intro w hw
    unfold edit_retries
    rw [if_pos hw]
    rcases save (set_retries s (max 0 (min 10 (str_to_nat w)))) with e | u <;> rfl
  have hchunk : (edit_chunk s v save).1
      = set_chunk s (max 64 (min 4096 (str_to_nat v))) := by
    unfold edit_chunk
    rw [if_pos hv]
    rcases save (set_chunk s (max 64 (min 4096 (str_to_nat v)))) with e | u <;> rfl
  have hparv : (edit_parallel s v save).1.ParallelDownloads
      = max 1 (min 16 (str_to_nat v)) := by rw [hpar]; rfl
  have hretv : ∀ w, str_isdigit w = true →
      (edit_retries s w save).1.RetryAttempts = max 0 (min 10 (str_to_nat w)) := by
    intro w hw
    rw [hret w hw]
    rfl
  have hchunkv : (edit_chunk s v save).1.ChunkSizeKiB
      = max 64 (min 4096 (str_to_nat v)) := by rw [hchunk]; rfl
  have hzero : (edit_retries s "0" save).1.RetryAttempts = 0 := by
    rw [hretv "0" (by decide)]
    rfl
  refine ⟨⟨hparv, ?_, ?_⟩, ⟨hretv v hv, ?_⟩, ⟨hchunkv, ?_, ?_⟩, ?_, hzero, ?_⟩
  · rw [hparv]
    omega
  · rw [hparv]
    have h1 : min 16 (str_to_nat v) ≤ 16 := Nat.min_le_left _ _
    omega
  · rw [hretv v hv]
    have h1 : min 10 (str_to_nat v) ≤ 10 := Nat.min_le_left _ _
    omega
  · rw [hchunkv]
    omega
  · rw [hchunkv]
    have h1 : min 4096 (str_to_nat v) ≤ 4096 := Nat.min_le_left _ _
    omega
  · intro w hw
    have hwne : ¬ (str_isdigit w = true) := by rw [hw]; intro h; cases h
    refine ⟨?_, ?_, ?_⟩
    · unfold edit_parallel
      rw [if_neg hwne]
    · unfold edit_retries
      rw [if_neg hwne]
    · unfold edit_chunk
      rw [if_neg hwne]
  · intro transfer
    unfold handle_download_job
    rw [hzero]
    rfl

/-- Witness for C10 at the concrete inputs `"99"` (clamped to 16), `"abc"`
(rejected) and `"0"` (accepted and flowing into a zero-attempt failed
job) with a succeeding save. -/
theorem settings_clamp_spec_witness :
    (edit_parallel default_settings "99" (fun _ => Except.ok ())).1.ParallelDownloads
      = max 1 (min 16 (str_to_nat "99"))
    ∧ (edit_retries default_settings "abc" (fun _ => Except.ok ()))
      = (default_settings, EditResult.invalid)
    ∧ (edit_retries default_settings "0" (fun _ => Except.ok ())).1.RetryAttempts = 0
    ∧ handle_download_job
        (edit_retries default_settings "0" (fun _ => Except.ok ())).1
        (fun _ => Except.error "never tried")
      = ⟨false, none, 0⟩ := by
  have h := settings_clamp_spec default_settings "99" (fun _ => Except.ok ())
    (by decide)
  exact ⟨h.1.1, (h.2.2.2.1 "abc" (by decide)).2.1, h.2.2.2.2.1,
    h.2.2.2.2.2 (fun _ => Except.error "never tried")⟩
